import Mathlib

/-!
Verification of the nexus-pkg reliability core against its specification.

The development shallowly embeds the two primitives of the repository:

* the transactional outbox (`transactional/message.go`, `transactional/service.go`):
  the message table is a `List Message`, SQL queries and updates are list
  operations with the same WHERE/ORDER BY/LIMIT semantics, and the broker is an
  oracle `pub` giving the success of each publish attempt;
* the consumer-side failure handler (`mq/failure_handler.go`): Kafka messages
  are records of topic/partition/offset/key/value/headers, and `Handle` is a
  pure function from the configuration, the failed message and the error to the
  published (target topic, outgoing message) pair;
* the ZooKeeper distributed lock (`internal/zookeeper/lock.go`): the
  coordination service's answers (children listings, watch outcomes, delete
  results) are passed in as explicit inputs, and the wait loop consumes a
  script of such answers.

Machine integers that can never overflow on the modelled paths (retry counts,
ids, partitions, offsets) are modelled as `Int`/`Nat`; timestamps as integer
seconds.
-/


namespace Transactional

/-- Status of a transactional outbox message (`transactional/message.go`):
PENDING, SENT, FAILED. -/
inductive Status where
  | pending
  | sent
  | failed
deriving DecidableEq, Repr

/-- One row of the `transactional_messages` table (`transactional/message.go`).
`updatedAt` is the `updated_at` column in integer seconds. -/
structure Message where
  id         : Int
  topic      : String
  key        : String
  payload    : List UInt8
  status     : Status
  retryCount : Int
  updatedAt  : Int
deriving DecidableEq, Repr

/-- `gormStore.UpdateStatus`: an unconditional
`UPDATE transactional_messages SET status = ?, retry_count = ? WHERE id = ?`;
GORM also refreshes the `updated_at` column (`autoUpdateTime`), passed here as
`now`. -/
def UpdateStatus (table : List Message) (id : Int) (status : Status)
    (newRetryCount : Int) (now : Int) : List Message :=
  table.map fun m =>
    if m.id = id then { m with status := status, retryCount := newRetryCount, updatedAt := now }
    else m

/-- The row filter of `gormStore.FindPendingMessages`:
`status = PENDING AND updated_at < now - 1 minute`. -/
def isPendingStale (now : Int) (m : Message) : Bool :=
  m.status == .pending && decide (m.updatedAt < now - 60)

/-- Ascending-id comparison used to model `ORDER BY id asc`. -/
def idLe (a b : Message) : Prop := a.id ≤ b.id

instance : DecidableRel idLe := fun a b => inferInstanceAs (Decidable (a.id ≤ b.id))

instance : IsTotal Message idLe := ⟨fun a b => le_total a.id b.id⟩

instance : IsTrans Message idLe := ⟨fun _ _ _ h1 h2 => le_trans h1 h2⟩

/-- `gormStore.FindPendingMessages`: rows with `status = PENDING` whose
`updated_at` is older than one minute, ordered by ascending id, limited to
`limit` rows.  The sort models the SQL `ORDER BY`: for a linear order the
sorted permutation of the filtered rows is unique. -/
def FindPendingMessages (table : List Message) (now : Int) (limit : Nat) : List Message :=
  (List.insertionSort idLe (table.filter (isPendingStale now))).take limit

/-- `Service.ForwardPendingMessages` (`transactional/service.go`): fetch up to
100 pending rows; for each, publish and then update the row — on broker success
`UpdateStatus(id, SENT, retryCount)`, on broker failure
`UpdateStatus(id, PENDING, retryCount+1)`.  `pub` is the outcome of
`writer.WriteMessages` for each fetched row. -/
def ForwardPendingMessages (table : List Message) (now : Int)
    (pub : Message → Bool) : List Message :=
  let msgs := FindPendingMessages table now 100
  msgs.foldl
    (fun acc msg =>
      if pub msg then UpdateStatus acc msg.id .sent msg.retryCount now
      else UpdateStatus acc msg.id .pending (msg.retryCount + 1) now)
    table

/-- The committed rows of the outbox table. -/
structure DBState where
  rows : List Message
deriving DecidableEq, Repr

/-- Modelled from the spec: the GORM transaction handle `tx *gorm.DB` that
`Service.SendInTx` receives from the business caller and passes to
`Store.CreateInTx`.  The store file in the snapshot shows an older
`CreateInTx` signature without the handle; the spec ("inserts the record using
the transaction handle supplied by the caller, so commit/rollback of the
business operation and the publish-intent are atomic") and the call site in
`service.go` fix the transactional semantics modelled here: writes made
through the handle are buffered and take effect only on commit. -/
structure Tx where
  base    : DBState
  pending : List Message
deriving DecidableEq, Repr

/-- Modelled from the spec: `gormStore.CreateInTx` — insert the record through
the caller-supplied transaction handle. -/
def CreateInTx (tx : Tx) (msg : Message) : Tx :=
  { tx with pending := tx.pending ++ [msg] }

/-- Committing the business transaction makes its buffered writes durable. -/
def commitTx (tx : Tx) : DBState :=
  ⟨tx.base.rows ++ tx.pending⟩

/-- Rolling the business transaction back discards its buffered writes. -/
def rollbackTx (tx : Tx) : DBState :=
  tx.base

/-- `Service.SendInTx` (`transactional/service.go` lines 28-38): build the
record from topic/key/payload with `Status: StatusPending` (the remaining Go
struct fields keep their zero values, in particular `RetryCount = 0`) and
insert it through the caller's transaction handle. -/
def SendInTx (tx : Tx) (topic key : String) (payload : List UInt8) : Tx :=
  CreateInTx tx
    { id := 0, topic := topic, key := key, payload := payload,
      status := .pending, retryCount := 0, updatedAt := 0 }

/-- The per-message forwarding step of `ForwardPendingMessages`. -/
def forwardStep (now : Int) (pub : Message → Bool)
    (acc : List Message) (msg : Message) : List Message :=
  if pub msg then UpdateStatus acc msg.id .sent msg.retryCount now
  else UpdateStatus acc msg.id .pending (msg.retryCount + 1) now

/-- A stale pending row (eligible for forwarding). -/
def exampleRow1 : Message := ⟨1, "t", "k", [], .pending, 0, 0⟩

/-- A stale pending row that already failed five times. -/
def exampleRow2 : Message := ⟨2, "t", "k", [], .pending, 5, 0⟩

/-- A pending row updated within the one-minute window (not eligible). -/
def exampleRow3 : Message := ⟨3, "t", "k", [], .pending, 0, 990⟩

/-- An already sent row. -/
def exampleRow4 : Message := ⟨4, "t", "k", [], .sent, 0, 0⟩

/-- An example outbox table. -/
def exampleTable : List Message := [exampleRow2, exampleRow4, exampleRow1, exampleRow3]

/-- A broker that accepts only the message with id 1. -/
def examplePub (m : Message) : Bool := m.id == 1

end Transactional

namespace Mq

/-- Wire header names used by the failure/retry path
(`mq/failure_handler.go` lines 17-25). -/
def HeaderOriginalTopic : String := "dlt-original-topic"

def HeaderOriginalPartition : String := "dlt-original-partition"

def HeaderOriginalOffset : String := "dlt-original-offset"

def HeaderExceptionFqcn : String := "dlt-exception-fqcn"

def HeaderExceptionMessage : String := "dlt-exception-message"

def HeaderExceptionStacktrace : String := "dlt-exception-stacktrace"

def HeaderRetryCount : String := "retry-count"

/-- One `kafka.Header`; values are byte slices carrying string-encoded data. -/
structure Header where
  key   : String
  value : String
deriving DecidableEq, Repr

/-- A `kafka.Message` as the failure handler sees it. -/
structure KafkaMessage where
  topic     : String
  partition : Int
  offset    : Int
  key       : String
  value     : String
  headers   : List Header
deriving DecidableEq, Repr

/-- A Go `error` value as the handler consumes it: its dynamic type
(`fmt.Sprintf("%T", err)`) and its `Error()` text.  A `nil` error is
`Option.none` at the use sites. -/
structure GoError where
  typeName : String
  errMsg   : String
deriving DecidableEq, Repr

/-- `ResilienceConfig` (`mq/failure_handler.go` lines 27-34).
`NewFailureHandler` copies `RetryableExceptions` into a set; membership in the
list is the same test. -/
structure ResilienceConfig where
  enabled             : Bool
  retryDelays         : List Int
  retryTopicTemplate  : String
  dltTopicTemplate    : String
  retryableExceptions : List String
deriving DecidableEq, Repr

/-- `getHeaderValue` (`mq/failure_handler.go` lines 163-170): value of the
first header with the given key, `""` if none. -/
def getHeaderValue (headers : List Header) (key : String) : String :=
  match headers with
  | [] => ""
  | h :: rest => if h.key = key then h.value else getHeaderValue rest key

/-- Digit run of Go's `strconv.Atoi`: all characters must be decimal digits. -/
def digitsToNat (acc : Nat) : List Char → Option Nat
  | [] => some acc
  | c :: cs =>
    if '0' ≤ c ∧ c ≤ '9' then digitsToNat (acc * 10 + (c.toNat - '0'.toNat)) cs
    else none

/-- Go's `strconv.Atoi`: optional sign followed by a non-empty digit run;
`none` on any syntax error.  (The `ErrRange` clamping of out-of-64-bit-range
inputs is not modelled; no modelled path distinguishes such values.) -/
def goAtoi (s : String) : Option Int :=
  match s.data with
  | [] => none
  | '-' :: cs =>
    if cs.isEmpty then none else (digitsToNat 0 cs).map (fun n => -(n : Int))
  | '+' :: cs =>
    if cs.isEmpty then none else (digitsToNat 0 cs).map (fun n => (n : Int))
  | cs => (digitsToNat 0 cs).map (fun n => (n : Int))

/-- `retryCount, _ := strconv.Atoi(...)`: the error is ignored, so syntax
errors (including the absent-header `""`) yield 0. -/
def atoiOrZero (s : String) : Int :=
  (goAtoi s).getD 0

/-- One replacement pass of `strings.NewReplacer(...).Replace`: scan left to
right; at each position substitute the first listed pattern that matches and
skip past it, never rescanning replaced text.  `fuel` bounds the recursion and
is instantiated with the input length (every modelled pattern is non-empty, so
the fuel is never exhausted first). -/
def replacerRun (pairs : List (String × String)) : List Char → Nat → List Char
  | cs, 0 => cs
  | [], _ + 1 => []
  | c :: cs, fuel + 1 =>
    match pairs.find? (fun p => p.1.data.isPrefixOf (c :: cs)) with
    | some p => p.2.data ++ replacerRun pairs ((c :: cs).drop p.1.data.length) fuel
    | none => c :: replacerRun pairs cs fuel

/-- `strings.NewReplacer(pairs...).Replace(s)`. -/
def goReplace (pairs : List (String × String)) (s : String) : String :=
  ⟨replacerRun pairs s.data s.data.length⟩

/-- The retry topic: the retry template with `\x7btopic\x7d` replaced by the
base topic and `\x7bdelaySec\x7d` by the delay (lines 82-85). -/
def retryTargetTopic (cfg : ResilienceConfig) (baseTopic : String) (delay : Int) : String :=
  goReplace [("\x7btopic\x7d", baseTopic), ("\x7bdelaySec\x7d", toString delay)]
    cfg.retryTopicTemplate

/-- The dead-letter topic: the DLT template with `\x7btopic\x7d` replaced by
the base topic (lines 94-96). -/
def dltTargetTopic (cfg : ResilienceConfig) (baseTopic : String) : String :=
  goReplace [("\x7btopic\x7d", baseTopic)] cfg.dltTopicTemplate

/-- `FailureHandler.isRetryable` (lines 154-161): a nil error is not
retryable; otherwise the error text must be in the configured retryable set. -/
def isRetryable (cfg : ResilienceConfig) (err : Option GoError) : Bool :=
  match err with
  | none => false
  | some e => cfg.retryableExceptions.contains e.errMsg

/-- The base topic of `Handle` (lines 74-77): the `dlt-original-topic` header
when non-empty, else the message's current topic. -/
def baseTopicOf (m : KafkaMessage) : String :=
  let b := getHeaderValue m.headers HeaderOriginalTopic
  if b = "" then m.topic else b

/-- `FailureHandler.prepareMessage` (lines 125-152): keep every original
header except `retry-count`, then append the new retry count, the lineage
headers, and — when an error object is present — the exception headers.  The
returned `kafka.Message` sets only key/value/headers; topic, partition and
offset keep Go zero values (the per-target writer supplies the topic). -/
def prepareMessage (original : KafkaMessage) (err : Option GoError)
    (retryCount : Int) (baseTopic : String) : KafkaMessage :=
  let kept := original.headers.filter (fun h => !(h.key == HeaderRetryCount))
  let mandatory := kept ++
    [⟨HeaderRetryCount, toString retryCount⟩,
     ⟨HeaderOriginalTopic, baseTopic⟩,
     ⟨HeaderOriginalPartition, toString original.partition⟩,
     ⟨HeaderOriginalOffset, toString original.offset⟩]
  let withErr :=
    match err with
    | some e => mandatory ++
        [⟨HeaderExceptionFqcn, e.typeName⟩,
         ⟨HeaderExceptionMessage, e.errMsg⟩,
         ⟨HeaderExceptionStacktrace, "stacktrace not implemented"⟩]
    | none => mandatory
  { topic := "", partition := 0, offset := 0,
    key := original.key, value := original.value, headers := withErr }

/-- Result of `FailureHandler.Handle`: no-op when disabled; otherwise the
message prepared by `prepareMessage` is published to the computed target
topic.  `panicked` models the Go runtime panic of `RetryDelays[retryCount]`
on a negative index. -/
inductive HandleResult where
  | disabled
  | panicked
  | published (targetTopic : String) (msg : KafkaMessage)
deriving DecidableEq, Repr

/-- `FailureHandler.Handle` (`mq/failure_handler.go` lines 60-111). -/
def Handle (cfg : ResilienceConfig) (m : KafkaMessage) (err : Option GoError) :
    HandleResult :=
  if !cfg.enabled then .disabled
  else
    let retryCount : Int := atoiOrZero (getHeaderValue m.headers HeaderRetryCount)
    let maxRetries : Int := cfg.retryDelays.length
    let baseTopic := baseTopicOf m
    if isRetryable cfg err && decide (retryCount < maxRetries) then
      if retryCount < 0 then .panicked
      else
        match cfg.retryDelays.get? retryCount.toNat with
        | some delay =>
          .published (retryTargetTopic cfg baseTopic delay)
            (prepareMessage m err (retryCount + 1) baseTopic)
        | none => .panicked
    else
      .published (dltTargetTopic cfg baseTopic)
        (prepareMessage m err retryCount baseTopic)

/-- A message published to `topic` as the consumer receives it back from the
broker: same key/value/headers, with topic, partition and offset assigned by
the broker. -/
def consumedFrom (topic : String) (partition offset : Int) (m : KafkaMessage) :
    KafkaMessage :=
  { m with topic := topic, partition := partition, offset := offset }

/-- The exception headers appended by `prepareMessage` when an error object is
present. -/
def errHeaders : Option GoError → List Header
  | some e =>
    [⟨HeaderExceptionFqcn, e.typeName⟩,
     ⟨HeaderExceptionMessage, e.errMsg⟩,
     ⟨HeaderExceptionStacktrace, "stacktrace not implemented"⟩]
  | none => []

/-- The message published by a `HandleResult`, if any. -/
def HandleResult.messageOf : HandleResult → Option KafkaMessage
  | .published _ n => some n
  | _ => none

/-- The target topic of a `HandleResult`, if any. -/
def HandleResult.topicOf : HandleResult → Option String
  | .published t _ => some t
  | _ => none

/-- A handler configuration with `retryDelays = [5, 30, 120]` and a retryable
error text, as in the spec's worked example. -/
def exampleCfg : ResilienceConfig :=
  { enabled := true, retryDelays := [5, 30, 120],
    retryTopicTemplate := "\x7btopic\x7d.retry.\x7bdelaySec\x7ds",
    dltTopicTemplate := "\x7btopic\x7d.dlt",
    retryableExceptions := ["boom"] }

/-- A failed message with retry count 2. -/
def exampleMsgRc2 : KafkaMessage :=
  { topic := "orders", partition := 3, offset := 42, key := "k", value := "v",
    headers := [⟨HeaderRetryCount, "2"⟩] }

/-- A failed message with retry count 3 (at the configured maximum). -/
def exampleMsgRc3 : KafkaMessage :=
  { topic := "orders", partition := 3, offset := 42, key := "k", value := "v",
    headers := [⟨HeaderRetryCount, "3"⟩] }

/-- The retryable error used in the worked example. -/
def exampleErr : Option GoError := some ⟨"errtype", "boom"⟩

/-- A first-hop failed message (no lineage headers yet). -/
def exampleFreshMsg : KafkaMessage :=
  { topic := "orders", partition := 3, offset := 42, key := "k", value := "v",
    headers := [] }

/-- The message the handler publishes for `exampleFreshMsg` with the retryable
error (retry count 0, delay 5). -/
def exampleHop1Msg : KafkaMessage :=
  { topic := "", partition := 0, offset := 0, key := "k", value := "v",
    headers :=
      [⟨"retry-count", "1"⟩, ⟨"dlt-original-topic", "orders"⟩,
       ⟨"dlt-original-partition", "3"⟩, ⟨"dlt-original-offset", "42"⟩,
       ⟨"dlt-exception-fqcn", "errtype"⟩, ⟨"dlt-exception-message", "boom"⟩,
       ⟨"dlt-exception-stacktrace", "stacktrace not implemented"⟩] }

/-- The message the handler publishes on the second pass, after
`exampleHop1Msg` is consumed back from the retry topic at partition 0,
offset 7. -/
def exampleHop2Msg : KafkaMessage :=
  { topic := "", partition := 0, offset := 0, key := "k", value := "v",
    headers :=
      [⟨"dlt-original-topic", "orders"⟩, ⟨"dlt-original-partition", "3"⟩,
       ⟨"dlt-original-offset", "42"⟩, ⟨"dlt-exception-fqcn", "errtype"⟩,
       ⟨"dlt-exception-message", "boom"⟩,
       ⟨"dlt-exception-stacktrace", "stacktrace not implemented"⟩,
       ⟨"retry-count", "2"⟩, ⟨"dlt-original-topic", "orders"⟩,
       ⟨"dlt-original-partition", "0"⟩, ⟨"dlt-original-offset", "7"⟩,
       ⟨"dlt-exception-fqcn", "errtype"⟩, ⟨"dlt-exception-message", "boom"⟩,
       ⟨"dlt-exception-stacktrace", "stacktrace not implemented"⟩] }

/-- A message that already carries an exception header from an earlier hop. -/
def staleExcMsg : KafkaMessage :=
  { topic := "t", partition := 0, offset := 0, key := "", value := "",
    headers := [⟨"dlt-exception-fqcn", "stale"⟩] }

/-- What the handler publishes for `staleExcMsg` under a nil error. -/
def staleExcOut : KafkaMessage :=
  { topic := "", partition := 0, offset := 0, key := "", value := "",
    headers :=
      [⟨"dlt-exception-fqcn", "stale"⟩, ⟨"retry-count", "0"⟩,
       ⟨"dlt-original-topic", "t"⟩, ⟨"dlt-original-partition", "0"⟩,
       ⟨"dlt-original-offset", "0"⟩] }

end Mq

namespace Zk

/-- The ZooKeeper client errors `lock.go` distinguishes. -/
inductive ZkError where
  | errNoNode
  | other
deriving DecidableEq, Repr

/-- `DistributedLock` (`internal/zookeeper/lock.go`): the lock path and the
node created by the last `Lock` attempt (`""` before any attempt). -/
structure DistributedLock where
  path     : String
  lockNode : String
deriving DecidableEq, Repr

/-- Go string order via the character data; byte-wise UTF-8 comparison and
code-point comparison agree on valid UTF-8. -/
def strLe (a b : String) : Prop := a.data ≤ b.data

instance : DecidableRel strLe := fun a b => inferInstanceAs (Decidable (a.data ≤ b.data))

instance : IsTotal String strLe := ⟨fun a b => le_total a.data b.data⟩

instance : IsTrans String strLe := ⟨fun _ _ _ h1 h2 => le_trans h1 h2⟩

instance : IsAntisymm String strLe := by
  refine ⟨fun a b h1 h2 => ?_⟩
  have hd : a.data = b.data := le_antisymm h1 h2
  cases a
  cases b
  exact congrArg String.mk hd

/-- `sort.Strings(children)`: ascending lexicographic sort.  Modelled by
insertion sort, which yields the unique sorted permutation for a linear
order. -/
def sortStrings (l : List String) : List String := List.insertionSort strLe l

/-- `strings.TrimPrefix(s, pre)` from the Go standard library. -/
def trimPrefixOf (s pre : String) : String :=
  if pre.data.isPrefixOf s.data then ⟨s.data.drop pre.data.length⟩ else s

/-- The decision taken by one pass over the loop body of
`DistributedLock.Lock` (lines 54-79): sort the children, acquire when the own
node is the first, otherwise watch the immediate predecessor.
`errEmptyChildren` models the Go index panic of `children[0]` on an empty
listing; `errNoPrev` is the "cannot find previous node" error. -/
inductive IterDecision where
  | acquired
  | watch (prevNodePath : String)
  | errEmptyChildren
  | errNoPrev
deriving DecidableEq, Repr

/-- One pass of the wait loop of `Lock`: steps 2-4 of the Go code. -/
def lockIter (path lockNode : String) (children : List String) : IterDecision :=
  let sorted := sortStrings children
  let myNodeName := trimPrefixOf lockNode (path ++ "/")
  match sorted with
  | [] => .errEmptyChildren
  | first :: _ =>
    if myNodeName = first then .acquired
    else if myNodeName ∈ sorted then
      match sorted.indexOf myNodeName with
      | 0 => .errNoPrev
      | i + 1 => .watch (path ++ "/" ++ sorted.getD i "")
    else .errNoPrev

/-- What the coordination service answers during one loop pass: the outcome of
`ExistsW` on the predecessor combined with the `select` on the event channel
versus the 30-second timer. -/
inductive WatchOutcome where
  | errNoNode
  | errOther
  | eventNodeDeleted
  | eventOther
  | timeout
deriving DecidableEq, Repr

/-- The coordination service's answers consumed by one pass of the wait loop:
the `Children` listing (`none` = call failed) and, when a watch is installed,
the watch outcome. -/
structure LoopInput where
  children : Option (List String)
  watch    : WatchOutcome
deriving DecidableEq, Repr

/-- Result of `Lock`: `ok` is the nil return. -/
inductive LockResult where
  | ok
  | errCreate
  | errChildren
  | panicEmptyChildren
  | errNoPrev
  | errWatch
  | errTimeout
  | noMoreSteps
deriving DecidableEq, Repr

/-- The wait loop of `Lock` (lines 53-101), consuming one `LoopInput` per
pass.  `ExistsW` returning `zk.ErrNoNode` and a watch event (of any type)
both re-enter the loop; any other `ExistsW` error aborts; the 30-second
timeout aborts with the timeout error.  An exhausted script yields
`noMoreSteps` (the model's way of cutting the unbounded loop). -/
def lockLoop (path lockNode : String) : List LoopInput → LockResult
  | [] => .noMoreSteps
  | step :: rest =>
    match step.children with
    | none => .errChildren
    | some children =>
      match lockIter path lockNode children with
      | .acquired => .ok
      | .errEmptyChildren => .panicEmptyChildren
      | .errNoPrev => .errNoPrev
      | .watch _ =>
        match step.watch with
        | .errNoNode => lockLoop path lockNode rest
        | .errOther => .errWatch
        | .eventNodeDeleted => lockLoop path lockNode rest
        | .eventOther => lockLoop path lockNode rest
        | .timeout => .errTimeout

/-- `DistributedLock.Lock` (lines 44-102): create the ephemeral sequential
node (`createResult` is the path returned by
`CreateProtectedEphemeralSequential`, `none` = creation failed), record it in
`lockNode` before entering the wait loop, then run the loop. -/
def Lock (l : DistributedLock) (createResult : Option String)
    (script : List LoopInput) : LockResult × DistributedLock :=
  match createResult with
  | none => (.errCreate, l)
  | some nodePath => (lockLoop l.path nodePath script, { l with lockNode := nodePath })

/-- Result of `Unlock`: `ok` is the nil return, `errNoLockToUnlock` the
"no lock to unlock" error. -/
inductive UnlockResult where
  | ok
  | errNoLockToUnlock
  | errDelete
deriving DecidableEq, Repr

/-- `DistributedLock.Unlock` (lines 104-115).  `deleteResult` is the outcome
of `conn.Delete` (`none` = success).  The third component is the node the call
successfully deleted, if any. -/
def Unlock (l : DistributedLock) (deleteResult : Option ZkError) :
    UnlockResult × DistributedLock × Option String :=
  if l.lockNode = "" then (.errNoLockToUnlock, l, none)
  else
    match deleteResult with
    | some ZkError.errNoNode => (.ok, { l with lockNode := "" }, none)
    | some _ => (.errDelete, l, none)
    | none => (.ok, { l with lockNode := "" }, some l.lockNode)

/-- A concrete ZooKeeper-style naming of sequence numbers below ten:
`lock-` followed by the zero-padded sequence suffix. -/
def exampleNodeName (n : Nat) : String := "lock-000000000" ++ toString n

end Zk

namespace Transactional

/-- C2: the outbox record travels through the caller's transaction handle:
rolling back after `SendInTx` leaves the table exactly as it was (no outbox
record persists), while the buffered record — which a commit would persist —
has status PENDING and retry count 0. -/
theorem sendInTx_atomic_pending_zero (tx : Tx) (topic key : String) (payload : List UInt8) :
    rollbackTx (SendInTx tx topic key payload) = tx.base
    ∧ (∀ m ∈ (rollbackTx (SendInTx tx topic key payload)).rows, m ∈ tx.base.rows)
    ∧ ∃ msg,
        (SendInTx tx topic key payload).pending = tx.pending ++ [msg]
        ∧ msg.status = .pending
        ∧ msg.retryCount = 0
        ∧ msg ∈ (commitTx (SendInTx tx topic key payload)).rows := by
  refine ⟨rfl, fun m hm => hm, ⟨_, rfl, rfl, rfl, ?_⟩⟩
  simp [commitTx, SendInTx, CreateInTx]

/-- Every row of an `UpdateStatus` result that carries the updated id holds the
written status and retry count. -/
theorem updateStatus_self {table : List Message} {id : Int} {status : Status}
    {rc now : Int} :
    ∀ r ∈ UpdateStatus table id status rc now, r.id = id →
      r.status = status ∧ r.retryCount = rc := by
  intro r hr hid
  simp only [UpdateStatus, List.mem_map] at hr
  obtain ⟨m, _, hr⟩ := hr
  by_cases h : m.id = id
  · simp only [h, if_true] at hr
    subst hr
    exact ⟨rfl, rfl⟩
  · simp only [h, if_false] at hr
    subst hr
    exact absurd hid h

/-- `UpdateStatus` for a different id leaves every row carrying `targetId`
untouched, so any property of those rows is preserved. -/
theorem updateStatus_other {table : List Message} {id targetId : Int}
    {status : Status} {rc now : Int} {P : Message → Prop}
    (hne : id ≠ targetId)
    (hP : ∀ r ∈ table, r.id = targetId → P r) :
    ∀ r ∈ UpdateStatus table id status rc now, r.id = targetId → P r := by
  intro r hr hid
  simp only [UpdateStatus, List.mem_map] at hr
  obtain ⟨m, hm, hr⟩ := hr
  by_cases h : m.id = id
  · simp only [h, if_true] at hr
    subst hr
    exact absurd hid hne
  · simp only [h, if_false] at hr
    subst hr
    exact hP m hm hid

theorem forwardPending_eq_foldl (table : List Message) (now : Int)
    (pub : Message → Bool) :
    ForwardPendingMessages table now pub
      = (FindPendingMessages table now 100).foldl (forwardStep now pub) table := rfl

/-- Folding forwarding steps whose messages all have a different id preserves
any property of the rows carrying `targetId`. -/
theorem foldl_forwardStep_other {targetId : Int} {now : Int} {pub : Message → Bool}
    {P : Message → Prop} :
    ∀ (msgs : List Message) (acc : List Message),
      (∀ m' ∈ msgs, m'.id ≠ targetId) →
      (∀ r ∈ acc, r.id = targetId → P r) →
      ∀ r ∈ msgs.foldl (forwardStep now pub) acc, r.id = targetId → P r := by
  intro msgs
  induction msgs with
  | nil => intro acc _ hacc; simpa using hacc
  | cons m rest ih =>
    intro acc hids hacc
    simp only [List.foldl_cons]
    refine ih _ (fun m' hm' => hids m' (List.mem_cons_of_mem _ hm')) ?_
    have hm : m.id ≠ targetId := hids m (List.mem_cons_self _ _)
    unfold forwardStep
    by_cases hp : pub m
    · simp only [hp, if_true]
      exact updateStatus_other hm hacc
    · simp only [hp, if_false]
      exact updateStatus_other hm hacc

/-- The ids of the batch fetched by `FindPendingMessages` are distinct whenever
the table's ids are distinct. -/
theorem findPending_ids_nodup (table : List Message) (now : Int) (limit : Nat)
    (hnd : (table.map Message.id).Nodup) :
    ((FindPendingMessages table now limit).map Message.id).Nodup := by
  have hsub0 : List.Sublist (table.filter (isPendingStale now)) table :=
    List.filter_sublist table
  have h1 : ((table.filter (isPendingStale now)).map Message.id).Nodup :=
    (hsub0.map Message.id).nodup hnd
  have hperm : (List.insertionSort idLe (table.filter (isPendingStale now))).Perm
      (table.filter (isPendingStale now)) :=
    List.perm_insertionSort idLe _
  have h2 : ((List.insertionSort idLe (table.filter (isPendingStale now))).map
      Message.id).Nodup :=
    ((hperm.map Message.id).nodup_iff).mpr h1
  exact ((List.take_sublist limit _).map Message.id).nodup h2

/-- C4: `ForwardPendingMessages` works on a batch of at most 100 rows; a row
whose publish succeeded is updated to SENT with its retry count unchanged, and
a row whose publish failed is updated to PENDING with its retry count
incremented by exactly one — with no condition on the current retry count, so
no ceiling is applied in this path. -/
theorem forwardPending_per_record
    (table : List Message) (now : Int) (pub : Message → Bool)
    (hnd : (table.map Message.id).Nodup)
    (msg : Message) (hmsg : msg ∈ FindPendingMessages table now 100) :
    (FindPendingMessages table now 100).length ≤ 100
    ∧ (∀ r ∈ ForwardPendingMessages table now pub, r.id = msg.id →
        (pub msg = true → r.status = .sent ∧ r.retryCount = msg.retryCount)
        ∧ (pub msg = false → r.status = .pending ∧ r.retryCount = msg.retryCount + 1)) := by
  constructor
  · exact List.length_take_le _ _
  · have hnd' : ((FindPendingMessages table now 100).map Message.id).Nodup :=
      findPending_ids_nodup table now 100 hnd
    obtain ⟨s, t, hst⟩ := List.append_of_mem hmsg
    intro r hr hid
    rw [forwardPending_eq_foldl, hst, List.foldl_append, List.foldl_cons] at hr
    have htail : ∀ m' ∈ t, m'.id ≠ msg.id := by
      have hsub : List.Sublist ((msg :: t).map Message.id)
          ((s ++ msg :: t).map Message.id) :=
        (List.sublist_append_right s (msg :: t)).map Message.id
      have hnd2 : ((msg :: t).map Message.id).Nodup := by
        rw [hst] at hnd'
        exact hsub.nodup hnd'
      simp only [List.map_cons, List.nodup_cons] at hnd2
      intro m' hm' heq
      exact hnd2.1 (heq ▸ List.mem_map_of_mem Message.id hm')
    have hbase : ∀ r' ∈ forwardStep now pub (List.foldl (forwardStep now pub) table s) msg,
        r'.id = msg.id →
        (pub msg = true → r'.status = .sent ∧ r'.retryCount = msg.retryCount)
        ∧ (pub msg = false → r'.status = .pending ∧ r'.retryCount = msg.retryCount + 1) := by
      intro r' hr' hid'
      unfold forwardStep at hr'
      by_cases hp : pub msg
      · simp only [hp, if_true] at hr'
        have hfields := updateStatus_self r' hr' hid'
        exact ⟨fun _ => hfields, fun hfalse => absurd hp (by simp [hfalse])⟩
      · simp only [hp, if_false] at hr'
        have hfields := updateStatus_self r' hr' hid'
        exact ⟨fun htrue => absurd htrue (by simpa using hp), fun _ => hfields⟩
    exact @foldl_forwardStep_other msg.id now pub
      (fun r => (pub msg = true → r.status = .sent ∧ r.retryCount = msg.retryCount)
        ∧ (pub msg = false → r.status = .pending ∧ r.retryCount = msg.retryCount + 1))
      t _ htail hbase r hr hid

/-- C5: `FindPendingMessages` returns at most `limit` rows; every returned row
is a PENDING row of the table whose last update is older than a minute; when
the table holds at most `limit` such rows, every one of them is returned; and
the result is ordered by ascending id. -/
theorem findPending_returns_stale_pending
    (table : List Message) (now : Int) (limit : Nat) :
    (FindPendingMessages table now limit).length ≤ limit
    ∧ (∀ m ∈ FindPendingMessages table now limit,
        m ∈ table ∧ m.status = .pending ∧ m.updatedAt < now - 60)
    ∧ (List.countP (isPendingStale now) table ≤ limit →
        ∀ m ∈ table, m.status = .pending → m.updatedAt < now - 60 →
          m ∈ FindPendingMessages table now limit)
    ∧ (FindPendingMessages table now limit).Sorted idLe := by
  have hperm : (List.insertionSort idLe (table.filter (isPendingStale now))).Perm
      (table.filter (isPendingStale now)) :=
    List.perm_insertionSort idLe _
  refine ⟨List.length_take_le _ _, ?_, ?_, ?_⟩
  · intro m hm
    have hm' : m ∈ List.insertionSort idLe (table.filter (isPendingStale now)) :=
      List.take_subset _ _ hm
    have hm'' : m ∈ table.filter (isPendingStale now) := hperm.mem_iff.mp hm'
    have := List.mem_filter.mp hm''
    refine ⟨this.1, ?_, ?_⟩
    · have h := this.2
      simp only [isPendingStale, Bool.and_eq_true, beq_iff_eq, decide_eq_true_eq] at h
      exact h.1
    · have h := this.2
      simp only [isPendingStale, Bool.and_eq_true, beq_iff_eq, decide_eq_true_eq] at h
      exact h.2
  · intro hcount m hm hst hstale
    have hmem : m ∈ table.filter (isPendingStale now) := by
      rw [List.mem_filter]
      refine ⟨hm, ?_⟩
      simp only [isPendingStale, Bool.and_eq_true, beq_iff_eq, decide_eq_true_eq]
      exact ⟨hst, hstale⟩
    have hlen : (List.insertionSort idLe (table.filter (isPendingStale now))).length ≤ limit := by
      rw [hperm.length_eq, ← List.countP_eq_length_filter]
      exact hcount
    rw [FindPendingMessages, List.take_of_length_le hlen]
    exact hperm.mem_iff.mpr hmem
  · exact (List.sorted_insertionSort idLe _).sublist (List.take_sublist _ _)

/-- `UpdateStatus` writes `status` into the matched rows and keeps every other
status. -/
theorem updateStatus_status_cases {table : List Message} {id : Int}
    {status : Status} {rc now : Int} :
    ∀ r ∈ UpdateStatus table id status rc now,
      r.status = status ∨ ∃ m ∈ table, r.status = m.status := by
  intro r hr
  simp only [UpdateStatus, List.mem_map] at hr
  obtain ⟨m, hm, hr⟩ := hr
  by_cases h : m.id = id
  · simp only [h, if_true] at hr
    subst hr
    exact Or.inl rfl
  · simp only [h, if_false] at hr
    subst hr
    exact Or.inr ⟨m, hm, rfl⟩

/-- Folding forwarding steps never writes the FAILED status. -/
theorem foldl_forwardStep_no_failed {now : Int} {pub : Message → Bool} :
    ∀ (msgs : List Message) (acc : List Message),
      (∀ m ∈ acc, m.status ≠ .failed) →
      ∀ r ∈ msgs.foldl (forwardStep now pub) acc, r.status ≠ .failed := by
  intro msgs
  induction msgs with
  | nil => intro acc hacc; simpa using hacc
  | cons m rest ih =>
    intro acc hacc
    simp only [List.foldl_cons]
    refine ih _ ?_
    intro r hr
    unfold forwardStep at hr
    by_cases hp : pub m
    · simp only [hp, if_true] at hr
      rcases updateStatus_status_cases r hr with h | ⟨m', hm', h⟩
      · simp [h]
      · rw [h]; exact hacc m' hm'
    · simp only [hp, if_false] at hr
      rcases updateStatus_status_cases r hr with h | ⟨m', hm', h⟩
      · simp [h]
      · rw [h]; exact hacc m' hm'

/-- C9: starting from a table without FAILED rows, neither
`ForwardPendingMessages` (which writes only SENT and PENDING) nor a committed
`SendInTx` (which writes only PENDING) ever produces a FAILED row. -/
theorem outbox_never_failed
    (table : List Message) (now : Int) (pub : Message → Bool)
    (h : ∀ m ∈ table, m.status ≠ .failed)
    (tx : Tx) (htx : ∀ m ∈ (commitTx tx).rows, m.status ≠ .failed)
    (topic key : String) (payload : List UInt8) :
    (∀ m ∈ ForwardPendingMessages table now pub, m.status ≠ .failed)
    ∧ (∀ m ∈ (commitTx (SendInTx tx topic key payload)).rows, m.status ≠ .failed) := by
  constructor
  · rw [forwardPending_eq_foldl]
    exact foldl_forwardStep_no_failed _ table h
  · intro m hm
    rcases List.mem_append.mp hm with hm2 | hm2
    · exact htx m (show m ∈ tx.base.rows ++ tx.pending from
        List.mem_append.mpr (Or.inl hm2))
    · rcases List.mem_append.mp hm2 with hm3 | hm3
      · exact htx m (show m ∈ tx.base.rows ++ tx.pending from
          List.mem_append.mpr (Or.inr hm3))
      · simp only [List.mem_singleton] at hm3
        subst hm3
        simp

/-- C2 witness: rolling back after a concrete `SendInTx` leaves the table
empty, and the buffered record is PENDING with retry count 0. -/
theorem sendInTx_atomic_pending_zero_witness :
    (rollbackTx (SendInTx ⟨⟨[]⟩, []⟩ "orders.created" "o1" [37]) = (⟨[]⟩ : DBState)
      ∧ (SendInTx ⟨⟨[]⟩, []⟩ "orders.created" "o1" [37]).pending
        = [⟨0, "orders.created", "o1", [37], .pending, 0, 0⟩])
    ∧ (rollbackTx (SendInTx ⟨⟨[]⟩, []⟩ "orders.created" "o1" [37]) = (⟨⟨[]⟩, []⟩ : Tx).base
      ∧ (∀ m ∈ (rollbackTx (SendInTx ⟨⟨[]⟩, []⟩ "orders.created" "o1" [37])).rows,
          m ∈ (⟨⟨[]⟩, []⟩ : Tx).base.rows)
      ∧ ∃ msg,
          (SendInTx ⟨⟨[]⟩, []⟩ "orders.created" "o1" [37]).pending
            = (⟨⟨[]⟩, []⟩ : Tx).pending ++ [msg]
          ∧ msg.status = .pending
          ∧ msg.retryCount = 0
          ∧ msg ∈ (commitTx (SendInTx ⟨⟨[]⟩, []⟩ "orders.created" "o1" [37])).rows) :=
  ⟨by decide, sendInTx_atomic_pending_zero ⟨⟨[]⟩, []⟩ "orders.created" "o1" [37]⟩

/-- C4 witness: on the example table, the accepted row 1 becomes SENT with
retry count 0 and the rejected row 2 stays PENDING with retry count 6 — one
more than its previous 5, beyond the length of any delay list. -/
theorem forwardPending_per_record_witness :
    ((exampleTable.map Message.id).Nodup
      ∧ exampleRow1 ∈ FindPendingMessages exampleTable 1000 100
      ∧ exampleRow2 ∈ FindPendingMessages exampleTable 1000 100
      ∧ ForwardPendingMessages exampleTable 1000 examplePub
        = [⟨2, "t", "k", [], .pending, 6, 1000⟩, exampleRow4,
           ⟨1, "t", "k", [], .sent, 0, 1000⟩, exampleRow3])
    ∧ ((FindPendingMessages exampleTable 1000 100).length ≤ 100
      ∧ (∀ r ∈ ForwardPendingMessages exampleTable 1000 examplePub, r.id = exampleRow2.id →
          (examplePub exampleRow2 = true →
            r.status = .sent ∧ r.retryCount = exampleRow2.retryCount)
          ∧ (examplePub exampleRow2 = false →
            r.status = .pending ∧ r.retryCount = exampleRow2.retryCount + 1))) :=
  ⟨by decide,
   forwardPending_per_record exampleTable 1000 examplePub (by decide)
     exampleRow2 (by decide)⟩

/-- C5 witness: on the example table the query returns exactly the two stale
pending rows in ascending id order; the fresh pending row and the sent row
are excluded. -/
theorem findPending_returns_stale_pending_witness :
    (FindPendingMessages exampleTable 1000 100 = [exampleRow1, exampleRow2]
      ∧ exampleRow3 ∉ FindPendingMessages exampleTable 1000 100
      ∧ exampleRow4 ∉ FindPendingMessages exampleTable 1000 100)
    ∧ ((FindPendingMessages exampleTable 1000 100).length ≤ 100
      ∧ (∀ m ∈ FindPendingMessages exampleTable 1000 100,
          m ∈ exampleTable ∧ m.status = .pending ∧ m.updatedAt < 1000 - 60)
      ∧ (List.countP (isPendingStale 1000) exampleTable ≤ 100 →
          ∀ m ∈ exampleTable, m.status = .pending → m.updatedAt < 1000 - 60 →
            m ∈ FindPendingMessages exampleTable 1000 100)
      ∧ (FindPendingMessages exampleTable 1000 100).Sorted idLe) :=
  ⟨by decide, findPending_returns_stale_pending exampleTable 1000 100⟩

/-- C9 witness: forwarding the example table and committing a `SendInTx` both
yield tables without a FAILED row. -/
theorem outbox_never_failed_witness :
    ((∀ m ∈ exampleTable, m.status ≠ .failed)
      ∧ (∀ m ∈ (commitTx ⟨⟨[exampleRow4]⟩, []⟩).rows, m.status ≠ .failed))
    ∧ ((∀ m ∈ ForwardPendingMessages exampleTable 1000 examplePub, m.status ≠ .failed)
      ∧ (∀ m ∈ (commitTx (SendInTx ⟨⟨[exampleRow4]⟩, []⟩ "t" "k" [])).rows,
          m.status ≠ .failed)) :=
  ⟨by decide,
   outbox_never_failed exampleTable 1000 examplePub (by decide)
     ⟨⟨[exampleRow4]⟩, []⟩ (by decide) "t" "k" []⟩

end Transactional

namespace Mq

theorem prepareMessage_headers (m : KafkaMessage) (err : Option GoError)
    (rc : Int) (b : String) :
    (prepareMessage m err rc b).headers
      = m.headers.filter (fun h => !(h.key == HeaderRetryCount))
        ++ ([⟨HeaderRetryCount, toString rc⟩,
             ⟨HeaderOriginalTopic, b⟩,
             ⟨HeaderOriginalPartition, toString m.partition⟩,
             ⟨HeaderOriginalOffset, toString m.offset⟩] ++ errHeaders err) := by
  cases err <;> simp [prepareMessage, errHeaders]

/-- `getHeaderValue` skips a block of headers none of which carries the key. -/
theorem getHeaderValue_append_right {l1 l2 : List Header} {k : String}
    (h : ∀ h' ∈ l1, h'.key ≠ k) :
    getHeaderValue (l1 ++ l2) k = getHeaderValue l2 k := by
  induction l1 with
  | nil => rfl
  | cons a rest ih =>
    have ha : a.key ≠ k := h a (List.mem_cons_self _ _)
    simp only [List.cons_append, getHeaderValue, if_neg ha]
    exact ih fun h' hh' => h h' (List.mem_cons_of_mem _ hh')

/-- `getHeaderValue` is `""` when no header carries the key. -/
theorem getHeaderValue_eq_empty {l : List Header} {k : String}
    (h : ∀ h' ∈ l, h'.key ≠ k) :
    getHeaderValue l k = "" := by
  induction l with
  | nil => rfl
  | cons a rest ih =>
    have ha : a.key ≠ k := h a (List.mem_cons_self _ _)
    simp only [getHeaderValue, if_neg ha]
    exact ih fun h' hh' => h h' (List.mem_cons_of_mem _ hh')

/-- The headers kept by `prepareMessage` never carry the `retry-count` key. -/
theorem mem_keptHeaders_ne_retryCount (l : List Header) :
    ∀ h ∈ l.filter (fun h => !(h.key == HeaderRetryCount)),
      h.key ≠ HeaderRetryCount := by
  intro h hh
  have := List.of_mem_filter hh
  simpa using this

/-- No exception header carries the `retry-count`, lineage-topic,
lineage-partition or lineage-offset keys. -/
theorem mem_errHeaders_keys (err : Option GoError) :
    ∀ h ∈ errHeaders err,
      h.key ≠ HeaderRetryCount ∧ h.key ≠ HeaderOriginalTopic
      ∧ h.key ≠ HeaderOriginalPartition ∧ h.key ≠ HeaderOriginalOffset := by
  intro h hh
  cases err with
  | none => simp [errHeaders] at hh
  | some e =>
    simp only [errHeaders, List.mem_cons, List.not_mem_nil, or_false] at hh
    rcases hh with rfl | rfl | rfl
    · show HeaderExceptionFqcn ≠ HeaderRetryCount ∧ HeaderExceptionFqcn ≠ HeaderOriginalTopic
        ∧ HeaderExceptionFqcn ≠ HeaderOriginalPartition ∧ HeaderExceptionFqcn ≠ HeaderOriginalOffset
      decide
    · show HeaderExceptionMessage ≠ HeaderRetryCount ∧ HeaderExceptionMessage ≠ HeaderOriginalTopic
        ∧ HeaderExceptionMessage ≠ HeaderOriginalPartition ∧ HeaderExceptionMessage ≠ HeaderOriginalOffset
      decide
    · show HeaderExceptionStacktrace ≠ HeaderRetryCount ∧ HeaderExceptionStacktrace ≠ HeaderOriginalTopic
        ∧ HeaderExceptionStacktrace ≠ HeaderOriginalPartition ∧ HeaderExceptionStacktrace ≠ HeaderOriginalOffset
      decide

/-- The retry count written by `prepareMessage` is the one readable from the
outgoing message. -/
theorem getHeaderValue_prepare_retryCount (m : KafkaMessage) (err : Option GoError)
    (rc : Int) (b : String) :
    getHeaderValue (prepareMessage m err rc b).headers HeaderRetryCount
      = toString rc := by
  rw [prepareMessage_headers,
    getHeaderValue_append_right (mem_keptHeaders_ne_retryCount m.headers)]
  simp [getHeaderValue]

/-- The outgoing message of `prepareMessage` carries exactly one `retry-count`
header, holding the new value: the old one is dropped. -/
theorem prepare_filter_retryCount (m : KafkaMessage) (err : Option GoError)
    (rc : Int) (b : String) :
    (prepareMessage m err rc b).headers.filter (fun h => h.key == HeaderRetryCount)
      = [⟨HeaderRetryCount, toString rc⟩] := by
  rw [prepareMessage_headers]
  rw [List.filter_append, List.filter_append]
  have h1 : (m.headers.filter (fun h => !(h.key == HeaderRetryCount))).filter
      (fun h => h.key == HeaderRetryCount) = [] := by
    rw [List.filter_eq_nil_iff]
    intro h hh
    have := mem_keptHeaders_ne_retryCount m.headers h hh
    simpa using this
  have h2 : (errHeaders err).filter (fun h => h.key == HeaderRetryCount) = [] := by
    rw [List.filter_eq_nil_iff]
    intro h hh
    have := (mem_errHeaders_keys err h hh).1
    simpa using this
  rw [h1, h2]
  rfl

/-- Every published result of `Handle` is `prepareMessage` at the message's
base topic for some retry count. -/
theorem handle_published_shape {cfg : ResilienceConfig} {m : KafkaMessage}
    {err : Option GoError} {t : String} {n : KafkaMessage}
    (h : Handle cfg m err = .published t n) :
    ∃ rc : Int, n = prepareMessage m err rc (baseTopicOf m) := by
  simp only [Handle] at h
  split at h
  · exact absurd h (by simp)
  · split at h
    · split at h
      · exact absurd h (by simp)
      · split at h
        · injection h with ht hn
          exact ⟨_, hn.symm⟩
        · exact absurd h (by simp)
    · injection h with ht hn
      exact ⟨_, hn.symm⟩

/-- C3: with the handler enabled and a well-formed (non-negative) retry-count
header, a retryable error below the retry budget is republished to the retry
topic built from the base topic and `retryDelays[retryCount]`, with its
retry-count header set to `retryCount + 1`; every other combination is
republished to the dead-letter topic built from the base topic. -/
theorem handle_retry_and_dlt_routing
    (cfg : ResilienceConfig) (m : KafkaMessage) (err : Option GoError)
    (hen : cfg.enabled = true)
    (hrc : 0 ≤ atoiOrZero (getHeaderValue m.headers HeaderRetryCount)) :
    (isRetryable cfg err = true ∧
        atoiOrZero (getHeaderValue m.headers HeaderRetryCount) < (cfg.retryDelays.length : Int) →
      Handle cfg m err
        = .published
            (retryTargetTopic cfg (baseTopicOf m)
              (cfg.retryDelays.getD
                (atoiOrZero (getHeaderValue m.headers HeaderRetryCount)).toNat 0))
            (prepareMessage m err
              (atoiOrZero (getHeaderValue m.headers HeaderRetryCount) + 1) (baseTopicOf m))
      ∧ getHeaderValue
          (prepareMessage m err
            (atoiOrZero (getHeaderValue m.headers HeaderRetryCount) + 1)
            (baseTopicOf m)).headers HeaderRetryCount
          = toString (atoiOrZero (getHeaderValue m.headers HeaderRetryCount) + 1))
    ∧ (¬(isRetryable cfg err = true ∧
          atoiOrZero (getHeaderValue m.headers HeaderRetryCount) < (cfg.retryDelays.length : Int)) →
      Handle cfg m err
        = .published (dltTargetTopic cfg (baseTopicOf m))
            (prepareMessage m err
              (atoiOrZero (getHeaderValue m.headers HeaderRetryCount)) (baseTopicOf m))) := by
  constructor
  · rintro ⟨hret, hlt⟩
    have hnneg : ¬ atoiOrZero (getHeaderValue m.headers HeaderRetryCount) < 0 :=
      not_lt.mpr hrc
    have hlen : (atoiOrZero (getHeaderValue m.headers HeaderRetryCount)).toNat
        < cfg.retryDelays.length := by
      omega
    have hv : cfg.retryDelays.get?
        (atoiOrZero (getHeaderValue m.headers HeaderRetryCount)).toNat
        = some (cfg.retryDelays.getD
            (atoiOrZero (getHeaderValue m.headers HeaderRetryCount)).toNat 0) := by
      rw [List.get?_eq_getElem?, List.getElem?_eq_getElem hlen, List.getD_eq_getElem?_getD,
        List.getElem?_eq_getElem hlen]
      rfl
    refine ⟨?_, getHeaderValue_prepare_retryCount m err _ _⟩
    simp only [Handle, hen, Bool.not_true, Bool.false_eq_true, if_false, hret,
      decide_eq_true hlt, Bool.and_self, if_true, if_neg hnneg, hv]
  · intro hcond
    have hb : (isRetryable cfg err &&
        decide (atoiOrZero (getHeaderValue m.headers HeaderRetryCount)
          < (cfg.retryDelays.length : Int))) = false := by
      by_cases hr : isRetryable cfg err = true
      · have hnlt : ¬ atoiOrZero (getHeaderValue m.headers HeaderRetryCount)
            < (cfg.retryDelays.length : Int) := fun hlt => hcond ⟨hr, hlt⟩
        simp [hr, hnlt]
      · rw [Bool.not_eq_true] at hr
        simp [hr]
    simp only [Handle, hen, Bool.not_true, Bool.false_eq_true, if_false, hb]

/-- C3 witness: with `retryDelays = [5, 30, 120]` and the retryable error, a
message with retry count 2 routes to the retry topic computed with delay 120
and its retry-count header becomes 3, while a message with retry count 3
routes to the dead-letter topic. -/
theorem handle_retry_and_dlt_routing_witness :
    (exampleCfg.enabled = true
      ∧ 0 ≤ atoiOrZero (getHeaderValue exampleMsgRc2.headers HeaderRetryCount)
      ∧ 0 ≤ atoiOrZero (getHeaderValue exampleMsgRc3.headers HeaderRetryCount)
      ∧ retryTargetTopic exampleCfg (baseTopicOf exampleMsgRc2)
          (exampleCfg.retryDelays.getD
            (atoiOrZero (getHeaderValue exampleMsgRc2.headers HeaderRetryCount)).toNat 0)
          = "orders.retry.120s"
      ∧ dltTargetTopic exampleCfg (baseTopicOf exampleMsgRc3) = "orders.dlt"
      ∧ toString (atoiOrZero (getHeaderValue exampleMsgRc2.headers HeaderRetryCount) + 1)
          = "3")
    ∧ (isRetryable exampleCfg exampleErr = true ∧
        atoiOrZero (getHeaderValue exampleMsgRc2.headers HeaderRetryCount)
          < (exampleCfg.retryDelays.length : Int) →
      Handle exampleCfg exampleMsgRc2 exampleErr
        = .published
            (retryTargetTopic exampleCfg (baseTopicOf exampleMsgRc2)
              (exampleCfg.retryDelays.getD
                (atoiOrZero (getHeaderValue exampleMsgRc2.headers HeaderRetryCount)).toNat 0))
            (prepareMessage exampleMsgRc2 exampleErr
              (atoiOrZero (getHeaderValue exampleMsgRc2.headers HeaderRetryCount) + 1)
              (baseTopicOf exampleMsgRc2))
      ∧ getHeaderValue
          (prepareMessage exampleMsgRc2 exampleErr
            (atoiOrZero (getHeaderValue exampleMsgRc2.headers HeaderRetryCount) + 1)
            (baseTopicOf exampleMsgRc2)).headers HeaderRetryCount
          = toString (atoiOrZero (getHeaderValue exampleMsgRc2.headers HeaderRetryCount) + 1))
    ∧ (¬(isRetryable exampleCfg exampleErr = true ∧
          atoiOrZero (getHeaderValue exampleMsgRc3.headers HeaderRetryCount)
            < (exampleCfg.retryDelays.length : Int)) →
      Handle exampleCfg exampleMsgRc3 exampleErr
        = .published (dltTargetTopic exampleCfg (baseTopicOf exampleMsgRc3))
            (prepareMessage exampleMsgRc3 exampleErr
              (atoiOrZero (getHeaderValue exampleMsgRc3.headers HeaderRetryCount))
              (baseTopicOf exampleMsgRc3))) :=
  ⟨by decide,
   (handle_retry_and_dlt_routing exampleCfg exampleMsgRc2 exampleErr (by decide) (by decide)).1,
   (handle_retry_and_dlt_routing exampleCfg exampleMsgRc3 exampleErr (by decide) (by decide)).2⟩

theorem getHeaderValue_cons_ne {h : Header} {rest : List Header} {k : String}
    (hne : h.key ≠ k) :
    getHeaderValue (h :: rest) k = getHeaderValue rest k := by
  simp only [getHeaderValue, if_neg hne]

theorem getHeaderValue_cons_eq {h : Header} {rest : List Header} {k : String}
    (heq : h.key = k) :
    getHeaderValue (h :: rest) k = h.value := by
  simp only [getHeaderValue, if_pos heq]

/-- C6: the base topic equals the lineage-topic header when non-empty, else
the current topic; the outgoing message carries exactly one retry-count header
(the old one is dropped and the new value carried); and the lineage values
readable from the outgoing headers after a second pass through the handler
still equal the first-hop topic/partition/offset, not those of the
intermediate retry topic. -/
theorem handle_lineage_preserved
    (cfg : ResilienceConfig) (m1 : KafkaMessage) (e1 e2 : Option GoError)
    (t1 t2 : String) (n1 n2 : KafkaMessage) (p2 o2 : Int)
    (hfresh : ∀ h ∈ m1.headers,
        h.key ≠ HeaderOriginalTopic ∧ h.key ≠ HeaderOriginalPartition
        ∧ h.key ≠ HeaderOriginalOffset)
    (htopic : m1.topic ≠ "")
    (h1 : Handle cfg m1 e1 = .published t1 n1)
    (h2 : Handle cfg (consumedFrom t1 p2 o2 n1) e2 = .published t2 n2) :
    baseTopicOf m1 = m1.topic
    ∧ baseTopicOf (consumedFrom t1 p2 o2 n1) = m1.topic
    ∧ (∃ rcv : Int, n1.headers.filter (fun h => h.key == HeaderRetryCount)
        = [⟨HeaderRetryCount, toString rcv⟩])
    ∧ (∃ rcv : Int, n2.headers.filter (fun h => h.key == HeaderRetryCount)
        = [⟨HeaderRetryCount, toString rcv⟩])
    ∧ getHeaderValue n2.headers HeaderOriginalTopic = m1.topic
    ∧ getHeaderValue n2.headers HeaderOriginalPartition = toString m1.partition
    ∧ getHeaderValue n2.headers HeaderOriginalOffset = toString m1.offset := by
  have hbase1 : baseTopicOf m1 = m1.topic := by
    have hno : getHeaderValue m1.headers HeaderOriginalTopic = "" :=
      getHeaderValue_eq_empty (fun h hh => (hfresh h hh).1)
    simp [baseTopicOf, hno]
  obtain ⟨rc1, hn1⟩ := handle_published_shape h1
  have hkept1T : ∀ h ∈ m1.headers.filter (fun h => !(h.key == HeaderRetryCount)),
      h.key ≠ HeaderOriginalTopic :=
    fun h hh => (hfresh h (List.mem_of_mem_filter hh)).1
  have hkept1P : ∀ h ∈ m1.headers.filter (fun h => !(h.key == HeaderRetryCount)),
      h.key ≠ HeaderOriginalPartition :=
    fun h hh => (hfresh h (List.mem_of_mem_filter hh)).2.1
  have hkept1O : ∀ h ∈ m1.headers.filter (fun h => !(h.key == HeaderRetryCount)),
      h.key ≠ HeaderOriginalOffset :=
    fun h hh => (hfresh h (List.mem_of_mem_filter hh)).2.2
  have hn1h : n1.headers
      = m1.headers.filter (fun h => !(h.key == HeaderRetryCount))
        ++ ([⟨HeaderRetryCount, toString rc1⟩,
             ⟨HeaderOriginalTopic, m1.topic⟩,
             ⟨HeaderOriginalPartition, toString m1.partition⟩,
             ⟨HeaderOriginalOffset, toString m1.offset⟩] ++ errHeaders e1) := by
    rw [hn1, prepareMessage_headers, hbase1]
  have hgot : getHeaderValue n1.headers HeaderOriginalTopic = m1.topic := by
    rw [hn1h, getHeaderValue_append_right hkept1T]
    refine Eq.trans (getHeaderValue_cons_ne
      (show HeaderRetryCount ≠ HeaderOriginalTopic by decide)) ?_
    exact getHeaderValue_cons_eq rfl
  have hgot2 : getHeaderValue (consumedFrom t1 p2 o2 n1).headers HeaderOriginalTopic
      = m1.topic := hgot
  have hbase2 : baseTopicOf (consumedFrom t1 p2 o2 n1) = m1.topic := by
    simp [baseTopicOf, hgot2, htopic]
  obtain ⟨rc2, hn2⟩ := handle_published_shape h2
  have hkept2 : (consumedFrom t1 p2 o2 n1).headers.filter
        (fun h => !(h.key == HeaderRetryCount))
      = m1.headers.filter (fun h => !(h.key == HeaderRetryCount))
        ++ ([⟨HeaderOriginalTopic, m1.topic⟩,
             ⟨HeaderOriginalPartition, toString m1.partition⟩,
             ⟨HeaderOriginalOffset, toString m1.offset⟩] ++ errHeaders e1) := by
    show n1.headers.filter (fun h => !(h.key == HeaderRetryCount)) = _
    rw [hn1h, List.filter_append, List.filter_append]
    have hself : (m1.headers.filter (fun h => !(h.key == HeaderRetryCount))).filter
        (fun h => !(h.key == HeaderRetryCount))
        = m1.headers.filter (fun h => !(h.key == HeaderRetryCount)) := by
      rw [List.filter_eq_self]
      intro h hh
      simpa using mem_keptHeaders_ne_retryCount m1.headers h hh
    have herr : (errHeaders e1).filter (fun h => !(h.key == HeaderRetryCount))
        = errHeaders e1 := by
      cases e1 <;> rfl
    rw [hself, herr]
    rfl
  have hn2h : n2.headers
      = (m1.headers.filter (fun h => !(h.key == HeaderRetryCount))
          ++ ([⟨HeaderOriginalTopic, m1.topic⟩,
               ⟨HeaderOriginalPartition, toString m1.partition⟩,
               ⟨HeaderOriginalOffset, toString m1.offset⟩] ++ errHeaders e1))
        ++ ([⟨HeaderRetryCount, toString rc2⟩,
             ⟨HeaderOriginalTopic, m1.topic⟩,
             ⟨HeaderOriginalPartition, toString (consumedFrom t1 p2 o2 n1).partition⟩,
             ⟨HeaderOriginalOffset, toString (consumedFrom t1 p2 o2 n1).offset⟩]
           ++ errHeaders e2) := by
    rw [hn2, prepareMessage_headers, hbase2, hkept2]
  refine ⟨hbase1, hbase2, ⟨rc1, ?_⟩, ⟨rc2, ?_⟩, ?_, ?_, ?_⟩
  · rw [hn1]
    exact prepare_filter_retryCount m1 e1 rc1 (baseTopicOf m1)
  · rw [hn2]
    exact prepare_filter_retryCount _ e2 rc2 (baseTopicOf (consumedFrom t1 p2 o2 n1))
  · rw [hn2h, List.append_assoc, getHeaderValue_append_right hkept1T]
    exact getHeaderValue_cons_eq rfl
  · rw [hn2h, List.append_assoc, getHeaderValue_append_right hkept1P]
    refine Eq.trans (getHeaderValue_cons_ne
      (show HeaderOriginalTopic ≠ HeaderOriginalPartition by decide)) ?_
    exact getHeaderValue_cons_eq rfl
  · rw [hn2h, List.append_assoc, getHeaderValue_append_right hkept1O]
    refine Eq.trans (getHeaderValue_cons_ne
      (show HeaderOriginalTopic ≠ HeaderOriginalOffset by decide)) ?_
    refine Eq.trans (getHeaderValue_cons_ne
      (show HeaderOriginalPartition ≠ HeaderOriginalOffset by decide)) ?_
    exact getHeaderValue_cons_eq rfl

/-- C6 witness: on a concrete two-pass run through the handler the lineage
read back from the second outgoing message is the first hop's
topic/partition/offset ("orders", 3, 42), not the retry topic's. -/
theorem handle_lineage_preserved_witness :
    ((∀ h ∈ exampleFreshMsg.headers,
        h.key ≠ HeaderOriginalTopic ∧ h.key ≠ HeaderOriginalPartition
        ∧ h.key ≠ HeaderOriginalOffset)
      ∧ exampleFreshMsg.topic ≠ ""
      ∧ Handle exampleCfg exampleFreshMsg exampleErr
          = .published "orders.retry.5s" exampleHop1Msg
      ∧ Handle exampleCfg (consumedFrom "orders.retry.5s" 0 7 exampleHop1Msg) exampleErr
          = .published "orders.retry.30s" exampleHop2Msg)
    ∧ (baseTopicOf exampleFreshMsg = exampleFreshMsg.topic
      ∧ baseTopicOf (consumedFrom "orders.retry.5s" 0 7 exampleHop1Msg)
          = exampleFreshMsg.topic
      ∧ (∃ rcv : Int, exampleHop1Msg.headers.filter (fun h => h.key == HeaderRetryCount)
          = [⟨HeaderRetryCount, toString rcv⟩])
      ∧ (∃ rcv : Int, exampleHop2Msg.headers.filter (fun h => h.key == HeaderRetryCount)
          = [⟨HeaderRetryCount, toString rcv⟩])
      ∧ getHeaderValue exampleHop2Msg.headers HeaderOriginalTopic = exampleFreshMsg.topic
      ∧ getHeaderValue exampleHop2Msg.headers HeaderOriginalPartition
          = toString exampleFreshMsg.partition
      ∧ getHeaderValue exampleHop2Msg.headers HeaderOriginalOffset
          = toString exampleFreshMsg.offset) :=
  ⟨⟨by decide, by decide, by decide, by decide⟩,
   handle_lineage_preserved exampleCfg exampleFreshMsg exampleErr exampleErr
     "orders.retry.5s" "orders.retry.30s" exampleHop1Msg exampleHop2Msg 0 7
     (by decide) (by decide) (by decide) (by decide)⟩

/-- C10 (amended): with the handler enabled, a nil error is classified
non-retryable regardless of the retryable set and the retry count, so the
message goes to the dead-letter topic with its retry count unchanged; the
handler adds no exception header (the outgoing message carries none whenever
the incoming one carried none) and attaches the retry-count and lineage
headers. -/
theorem handle_nil_error_dlt
    (cfg : ResilienceConfig) (m : KafkaMessage)
    (hen : cfg.enabled = true) :
    Handle cfg m none
      = .published (dltTargetTopic cfg (baseTopicOf m))
          (prepareMessage m none
            (atoiOrZero (getHeaderValue m.headers HeaderRetryCount)) (baseTopicOf m))
    ∧ ((∀ h ∈ m.headers, h.key ≠ HeaderExceptionFqcn ∧ h.key ≠ HeaderExceptionMessage
          ∧ h.key ≠ HeaderExceptionStacktrace) →
        ∀ h ∈ (prepareMessage m none
            (atoiOrZero (getHeaderValue m.headers HeaderRetryCount))
            (baseTopicOf m)).headers,
          h.key ≠ HeaderExceptionFqcn ∧ h.key ≠ HeaderExceptionMessage
          ∧ h.key ≠ HeaderExceptionStacktrace)
    ∧ getHeaderValue (prepareMessage m none
          (atoiOrZero (getHeaderValue m.headers HeaderRetryCount))
          (baseTopicOf m)).headers HeaderRetryCount
        = toString (atoiOrZero (getHeaderValue m.headers HeaderRetryCount))
    ∧ (⟨HeaderOriginalTopic, baseTopicOf m⟩ : Header)
        ∈ (prepareMessage m none
            (atoiOrZero (getHeaderValue m.headers HeaderRetryCount))
            (baseTopicOf m)).headers
    ∧ (⟨HeaderOriginalPartition, toString m.partition⟩ : Header)
        ∈ (prepareMessage m none
            (atoiOrZero (getHeaderValue m.headers HeaderRetryCount))
            (baseTopicOf m)).headers
    ∧ (⟨HeaderOriginalOffset, toString m.offset⟩ : Header)
        ∈ (prepareMessage m none
            (atoiOrZero (getHeaderValue m.headers HeaderRetryCount))
            (baseTopicOf m)).headers := by
  refine ⟨?_, ?_, getHeaderValue_prepare_retryCount m none _ _, ?_, ?_, ?_⟩
  · simp only [Handle, hen, Bool.not_true, Bool.false_eq_true, if_false, isRetryable,
      Bool.false_and, if_neg (by simp : ¬(false = true))]
  · intro hnoexc h hh
    rw [prepareMessage_headers] at hh
    rcases List.mem_append.mp hh with hh2 | hh2
    · exact hnoexc h (List.mem_of_mem_filter hh2)
    · rcases List.mem_append.mp hh2 with hh3 | hh3
      · simp only [List.mem_cons, List.not_mem_nil, or_false] at hh3
        rcases hh3 with rfl | rfl | rfl | rfl
        · show HeaderRetryCount ≠ HeaderExceptionFqcn
            ∧ HeaderRetryCount ≠ HeaderExceptionMessage
            ∧ HeaderRetryCount ≠ HeaderExceptionStacktrace
          decide
        · show HeaderOriginalTopic ≠ HeaderExceptionFqcn
            ∧ HeaderOriginalTopic ≠ HeaderExceptionMessage
            ∧ HeaderOriginalTopic ≠ HeaderExceptionStacktrace
          decide
        · show HeaderOriginalPartition ≠ HeaderExceptionFqcn
            ∧ HeaderOriginalPartition ≠ HeaderExceptionMessage
            ∧ HeaderOriginalPartition ≠ HeaderExceptionStacktrace
          decide
        · show HeaderOriginalOffset ≠ HeaderExceptionFqcn
            ∧ HeaderOriginalOffset ≠ HeaderExceptionMessage
            ∧ HeaderOriginalOffset ≠ HeaderExceptionStacktrace
          decide
      · simp [errHeaders] at hh3
  · rw [prepareMessage_headers]
    exact List.mem_append.mpr (Or.inr (by simp))
  · rw [prepareMessage_headers]
    exact List.mem_append.mpr (Or.inr (by simp))
  · rw [prepareMessage_headers]
    exact List.mem_append.mpr (Or.inr (by simp))

/-- C10 counterexample: with a nil error the handler routes to the DLT, but
the outgoing message still carries a `dlt-exception-fqcn` header when the
incoming message already carried one — the claim's "carries no
dlt-exception-* header" fails on this input. -/
theorem handle_nil_error_keeps_stale_exception_header :
    Handle exampleCfg staleExcMsg none = .published "t.dlt" staleExcOut
    ∧ (⟨HeaderExceptionFqcn, "stale"⟩ : Header) ∈ staleExcOut.headers := by
  decide

/-- C10 witness for the amended claim, at a message carrying no exception
header: the nil-error call routes to the DLT and the outgoing message carries
retry-count and lineage headers but no exception header. -/
theorem handle_nil_error_dlt_witness :
    (exampleCfg.enabled = true
      ∧ (∀ h ∈ exampleMsgRc2.headers,
          h.key ≠ HeaderExceptionFqcn ∧ h.key ≠ HeaderExceptionMessage
          ∧ h.key ≠ HeaderExceptionStacktrace)
      ∧ dltTargetTopic exampleCfg (baseTopicOf exampleMsgRc2) = "orders.dlt")
    ∧ (Handle exampleCfg exampleMsgRc2 none
        = .published (dltTargetTopic exampleCfg (baseTopicOf exampleMsgRc2))
            (prepareMessage exampleMsgRc2 none
              (atoiOrZero (getHeaderValue exampleMsgRc2.headers HeaderRetryCount))
              (baseTopicOf exampleMsgRc2))
      ∧ (∀ h ∈ (prepareMessage exampleMsgRc2 none
            (atoiOrZero (getHeaderValue exampleMsgRc2.headers HeaderRetryCount))
            (baseTopicOf exampleMsgRc2)).headers,
          h.key ≠ HeaderExceptionFqcn ∧ h.key ≠ HeaderExceptionMessage
          ∧ h.key ≠ HeaderExceptionStacktrace)
      ∧ getHeaderValue (prepareMessage exampleMsgRc2 none
            (atoiOrZero (getHeaderValue exampleMsgRc2.headers HeaderRetryCount))
            (baseTopicOf exampleMsgRc2)).headers HeaderRetryCount
          = toString (atoiOrZero (getHeaderValue exampleMsgRc2.headers HeaderRetryCount))) :=
  ⟨by decide,
   (handle_nil_error_dlt exampleCfg exampleMsgRc2 (by decide)).1,
   fun h hh => (handle_nil_error_dlt exampleCfg exampleMsgRc2 (by decide)).2.1
     (by decide) h hh,
   (handle_nil_error_dlt exampleCfg exampleMsgRc2 (by decide)).2.2.1⟩

end Mq

namespace Zk

theorem trimPrefixOf_append (p r : String) : trimPrefixOf (p ++ r) p = r := by
  unfold trimPrefixOf
  have hpre : p.data.isPrefixOf (p ++ r).data = true := by
    rw [String.data_append]
    exact List.isPrefixOf_iff_prefix.mpr (List.prefix_append _ _)
  rw [if_pos hpre, String.data_append, List.drop_left]

/-- Sorting the image of a list under a naming function whose string order
agrees with the numeric order on the list's members is the image of the sorted
list. -/
theorem sortStrings_map_of_mono (f : Nat → String) (l : List Nat)
    (hf : ∀ a ∈ l, ∀ b ∈ l, (strLe (f a) (f b) ↔ a ≤ b)) :
    sortStrings (l.map f) = (List.insertionSort (· ≤ ·) l).map f := by
  have hpermN : (List.insertionSort (· ≤ ·) l).Perm l := List.perm_insertionSort _ _
  have hperm : (sortStrings (l.map f)).Perm ((List.insertionSort (· ≤ ·) l).map f) :=
    (List.perm_insertionSort strLe (l.map f)).trans (hpermN.map f).symm
  have hs1 : List.Sorted strLe (sortStrings (l.map f)) :=
    List.sorted_insertionSort strLe (l.map f)
  have hs2 : List.Sorted strLe ((List.insertionSort (· ≤ ·) l).map f) := by
    have hsortN : List.Sorted (· ≤ ·) (List.insertionSort (· ≤ ·) l) :=
      List.sorted_insertionSort _ _
    have hpairs : List.Pairwise (fun a b => strLe (f a) (f b))
        (List.insertionSort (· ≤ ·) l) := by
      refine List.Pairwise.imp_of_mem ?_ hsortN
      intro a b ha hb hab
      exact (hf a (hpermN.mem_iff.mp ha) b (hpermN.mem_iff.mp hb)).mpr hab
    exact List.pairwise_map.mpr hpairs
  exact List.eq_of_perm_of_sorted hperm hs1 hs2

/-- C1: one pass of `Lock`'s loop over the sibling listing, with the caller's
node named `f my` for a naming function whose string order agrees with the
sequence-number order (ZooKeeper's zero-padded sequence suffixes): the pass
acquires the lock — and `Lock` returns nil — exactly when the caller's
sequence number is the minimum, and otherwise it watches the sibling with the
greatest sequence number smaller than its own. -/
theorem lock_acquire_iff_min
    (path : String) (f : Nat → String) (seqs : List Nat) (my : Nat)
    (hf : ∀ a ∈ seqs, ∀ b ∈ seqs, (strLe (f a) (f b) ↔ a ≤ b))
    (hnd : seqs.Nodup) (hmem : my ∈ seqs) :
    (lockIter path (path ++ "/" ++ f my) (seqs.map f) = .acquired
      ↔ ∀ s ∈ seqs, my ≤ s)
    ∧ ((∃ s ∈ seqs, s < my) →
        ∃ p ∈ seqs, p < my ∧ (∀ s ∈ seqs, s < my → s ≤ p)
          ∧ lockIter path (path ++ "/" ++ f my) (seqs.map f)
              = .watch (path ++ "/" ++ f p))
    ∧ ((∀ s ∈ seqs, my ≤ s) → ∀ (w : WatchOutcome) (rest : List LoopInput),
        lockLoop path (path ++ "/" ++ f my) (⟨some (seqs.map f), w⟩ :: rest)
          = .ok) := by
  have hperm : (List.insertionSort (· ≤ ·) seqs).Perm seqs := List.perm_insertionSort _ _
  have hsorted : List.Sorted (· ≤ ·) (List.insertionSort (· ≤ ·) seqs) :=
    List.sorted_insertionSort _ _
  have hndS : (List.insertionSort (· ≤ ·) seqs).Nodup := hperm.nodup_iff.mpr hnd
  have hmemS : my ∈ List.insertionSort (· ≤ ·) seqs := hperm.mem_iff.mpr hmem
  have hmapeq : sortStrings (seqs.map f) = (List.insertionSort (· ≤ ·) seqs).map f :=
    sortStrings_map_of_mono f seqs hf
  have htrim : trimPrefixOf (path ++ "/" ++ f my) (path ++ "/") = f my :=
    trimPrefixOf_append (path ++ "/") (f my)
  have hinj : ∀ a ∈ seqs, ∀ b ∈ seqs, f a = f b → a = b := by
    intro a ha b hb heq
    have h1 : a ≤ b := (hf a ha b hb).mp (le_of_eq (congrArg String.data heq))
    have h2 : b ≤ a := (hf b hb a ha).mp (le_of_eq (congrArg String.data heq.symm))
    exact le_antisymm h1 h2
  obtain ⟨h0, t, hcons⟩ : ∃ h0 t, List.insertionSort (· ≤ ·) seqs = h0 :: t := by
    cases hq : List.insertionSort (· ≤ ·) seqs with
    | nil => rw [hq] at hmemS; simp at hmemS
    | cons a b => exact ⟨a, b, rfl⟩
  have hh0mem : h0 ∈ seqs := hperm.mem_iff.mp (hcons ▸ List.mem_cons_self h0 t)
  have hh0min : ∀ s ∈ seqs, h0 ≤ s := by
    intro s hs
    have hs' : s ∈ h0 :: t := hcons ▸ hperm.mem_iff.mpr hs
    rcases List.mem_cons.mp hs' with rfl | hst
    · exact le_refl _
    · exact ((List.sorted_cons.mp (hcons ▸ hsorted)).1 s hst)
  have hmin_iff : my = h0 ↔ ∀ s ∈ seqs, my ≤ s := by
    constructor
    · intro hd s hs
      exact hd ▸ hh0min s hs
    · intro hmin
      exact le_antisymm (hmin h0 hh0mem) (hh0min my hmem)
  by_cases hd : my = h0
  · have hacq : lockIter path (path ++ "/" ++ f my) (seqs.map f) = .acquired := by
      simp only [lockIter, hmapeq, hcons, List.map_cons, htrim, if_pos (congrArg f hd)]
    have hmin : ∀ s ∈ seqs, my ≤ s := hmin_iff.mp hd
    refine ⟨⟨fun _ => hmin, fun _ => hacq⟩, ?_, ?_⟩
    · rintro ⟨s, hs, hslt⟩
      exact absurd (hmin s hs) (not_le.mpr hslt)
    · intro _ w rest
      simp only [lockLoop, hacq]
  · -- not the minimum: the loop watches the immediate predecessor
    have hfne : f my ≠ f h0 := fun he => hd (hinj my hmem h0 hh0mem he)
    have hnotmin : ¬ ∀ s ∈ seqs, my ≤ s := fun hmin => hd (hmin_iff.mpr hmin)
    have hi : (List.insertionSort (· ≤ ·) seqs).indexOf my
        < (List.insertionSort (· ≤ ·) seqs).length :=
      List.indexOf_lt_length.mpr hmemS
    have hgetI : (List.insertionSort (· ≤ ·) seqs)[(List.insertionSort (· ≤ ·) seqs).indexOf my] = my :=
      List.getElem_indexOf hi
    have hndmap : ((List.insertionSort (· ≤ ·) seqs).map f).Nodup := by
      refine List.Nodup.map_on ?_ hndS
      intro a ha b hb heq
      exact hinj a (hperm.mem_iff.mp ha) b (hperm.mem_iff.mp hb) heq
    have hilen : (List.insertionSort (· ≤ ·) seqs).indexOf my
        < ((List.insertionSort (· ≤ ·) seqs).map f).length := by
      simpa using hi
    have hmapat : ((List.insertionSort (· ≤ ·) seqs).map f)[(List.insertionSort (· ≤ ·) seqs).indexOf my] = f my := by
      rw [List.getElem_map]
      exact congrArg f hgetI
    have hidxmap : ((List.insertionSort (· ≤ ·) seqs).map f).indexOf (f my)
        = (List.insertionSort (· ≤ ·) seqs).indexOf my := by
      have := List.indexOf_getElem hndmap ((List.insertionSort (· ≤ ·) seqs).indexOf my) hilen
      rw [hmapat] at this
      exact this
    have hine : (List.insertionSort (· ≤ ·) seqs).indexOf my ≠ 0 := by
      intro h0eq
      apply hd
      have h00 := hgetI
      simp only [h0eq] at h00
      rw [← h00]
      simp [hcons]
    obtain ⟨j, hj⟩ : ∃ j, (List.insertionSort (· ≤ ·) seqs).indexOf my = j + 1 :=
      Nat.exists_eq_succ_of_ne_zero hine
    have hjlt : j < (List.insertionSort (· ≤ ·) seqs).length := by omega
    have hjlen : j < ((List.insertionSort (· ≤ ·) seqs).map f).length := by
      simpa using hjlt
    have hgetD : ((List.insertionSort (· ≤ ·) seqs).map f).getD j ""
        = f ((List.insertionSort (· ≤ ·) seqs).get ⟨j, hjlt⟩) := by
      rw [List.getD_eq_getElem?_getD, List.getElem?_eq_getElem hjlen]
      simp [List.get_eq_getElem]
    have hmemmap2 : f my ∈ f h0 :: List.map f t := by
      rw [← List.map_cons, ← hcons]
      exact List.mem_map_of_mem f hmemS
    have hred : List.indexOf (f my) (f h0 :: List.map f t) = j + 1 := by
      have : List.indexOf (f my) ((h0 :: t).map f) = j + 1 := by
        rw [← hcons, hidxmap, hj]
      simpa using this
    have hjlt2 : j < (h0 :: t).length := hcons ▸ hjlt
    have hjlen2 : j < (List.map f (h0 :: t)).length := by
      simpa using hjlt2
    have hgd : (List.map f (h0 :: t)).getD j "" = f ((h0 :: t).get ⟨j, hjlt2⟩) := by
      rw [List.getD_eq_getElem?_getD, List.getElem?_eq_getElem hjlen2, Option.getD_some,
        List.get_eq_getElem]
      exact List.getElem_map f
    have hiter0 : lockIter path (path ++ "/" ++ f my) (seqs.map f)
        = .watch (path ++ "/" ++ f ((h0 :: t).get ⟨j, hjlt2⟩)) := by
      simp only [lockIter, hmapeq, hcons, List.map_cons, htrim, if_neg hfne]
      rw [if_pos hmemmap2]
      simp only [hred]
      exact congrArg (fun s => IterDecision.watch (path ++ "/" ++ s)) hgd
    have hgetI2 : (List.insertionSort (· ≤ ·) seqs).get
        ⟨(List.insertionSort (· ≤ ·) seqs).indexOf my, hi⟩ = my := by
      rw [List.get_eq_getElem]
      exact hgetI
    obtain ⟨p, hpdef⟩ : ∃ p, (List.insertionSort (· ≤ ·) seqs).get ⟨j, hjlt⟩ = p := ⟨_, rfl⟩
    have hiter : lockIter path (path ++ "/" ++ f my) (seqs.map f)
        = .watch (path ++ "/" ++ f p) := by
      rw [hiter0]
      have hgo : (List.insertionSort (· ≤ ·) seqs).get ⟨j, hjlt⟩
          = (h0 :: t).get ⟨j, hjlt2⟩ :=
        List.get_of_eq hcons ⟨j, hjlt⟩
      rw [← hgo, hpdef]
    have hpmem : p ∈ seqs := hperm.mem_iff.mp (hpdef ▸ List.get_mem _ _ hjlt)
    have hle : p ≤ my := by
      have hfin : (⟨j, hjlt⟩ : Fin (List.insertionSort (· ≤ ·) seqs).length)
          < ⟨(List.insertionSort (· ≤ ·) seqs).indexOf my, hi⟩ := by
        simp only [Fin.mk_lt_mk, hj]
        omega
      have hrel := List.Sorted.rel_get_of_lt hsorted hfin
      rw [hpdef, hgetI2] at hrel
      exact hrel
    have hplt : p < my := by
      have hne : p ≠ my := by
        intro he
        have he2 : (List.insertionSort (· ≤ ·) seqs).get ⟨j, hjlt⟩
            = (List.insertionSort (· ≤ ·) seqs).get
                ⟨(List.insertionSort (· ≤ ·) seqs).indexOf my, hi⟩ := by
          rw [hgetI2, hpdef]
          exact he
        have hfeq := (List.Nodup.get_inj_iff hndS).mp he2
        have : j = (List.insertionSort (· ≤ ·) seqs).indexOf my :=
          congrArg Fin.val hfeq
        omega
      exact lt_of_le_of_ne hle hne
    have hpmax : ∀ s ∈ seqs, s < my → s ≤ p := by
      intro s hs hslt
      obtain ⟨k, hk, hks⟩ := List.getElem_of_mem (hperm.mem_iff.mpr hs)
      have hkle : k ≤ j := by
        by_contra hgt
        push_neg at hgt
        rcases Nat.lt_or_ge ((List.insertionSort (· ≤ ·) seqs).indexOf my) k with hlt | hge
        · have hfin : (⟨(List.insertionSort (· ≤ ·) seqs).indexOf my, hi⟩
              : Fin (List.insertionSort (· ≤ ·) seqs).length) < ⟨k, hk⟩ := by
            simpa using hlt
          have hrel := List.Sorted.rel_get_of_lt hsorted hfin
          rw [List.get_eq_getElem, List.get_eq_getElem, hgetI, hks] at hrel
          omega
        · have hkeq : k = (List.insertionSort (· ≤ ·) seqs).indexOf my := by omega
          subst hkeq
          rw [hgetI] at hks
          omega
      rcases Nat.lt_or_ge k j with hklt | hkge
      · have hfin : (⟨k, hk⟩ : Fin (List.insertionSort (· ≤ ·) seqs).length)
            < ⟨j, hjlt⟩ := by
          simpa using hklt
        have hrel := List.Sorted.rel_get_of_lt hsorted hfin
        have hks2 : (List.insertionSort (· ≤ ·) seqs).get ⟨k, hk⟩ = s := by
          rw [List.get_eq_getElem]
          exact hks
        rw [hks2, hpdef] at hrel
        exact hrel
      · have hkeq : k = j := by omega
        subst hkeq
        have hsp : s = p := by
          rw [← hpdef, List.get_eq_getElem]
          exact hks.symm
        exact le_of_eq hsp
    refine ⟨⟨fun hacq => ?_, fun hmin => absurd hmin hnotmin⟩, ?_, ?_⟩
    · rw [hiter] at hacq
      exact absurd hacq (by simp)
    · intro _
      exact ⟨p, hpmem, hplt, hpmax, hiter⟩
    · intro hmin
      exact absurd hmin hnotmin

/-- C1 witness: among the sequence numbers 2, 0, 1 the caller with sequence
number 1 is not the minimum, and one pass of the loop watches the node of
sequence number 0 — the greatest sequence number smaller than 1. -/
theorem lock_acquire_iff_min_witness :
    ((∀ a ∈ ([2, 0, 1] : List Nat), ∀ b ∈ ([2, 0, 1] : List Nat),
        (strLe (exampleNodeName a) (exampleNodeName b) ↔ a ≤ b))
      ∧ ([2, 0, 1] : List Nat).Nodup
      ∧ 1 ∈ ([2, 0, 1] : List Nat)
      ∧ lockIter "/distributed_locks/item-1"
          ("/distributed_locks/item-1" ++ "/" ++ exampleNodeName 1)
          (([2, 0, 1] : List Nat).map exampleNodeName)
          = .watch ("/distributed_locks/item-1" ++ "/" ++ exampleNodeName 0))
    ∧ ((lockIter "/distributed_locks/item-1"
          ("/distributed_locks/item-1" ++ "/" ++ exampleNodeName 1)
          (([2, 0, 1] : List Nat).map exampleNodeName) = .acquired
        ↔ ∀ s ∈ ([2, 0, 1] : List Nat), 1 ≤ s)
      ∧ ((∃ s ∈ ([2, 0, 1] : List Nat), s < 1) →
          ∃ p ∈ ([2, 0, 1] : List Nat), p < 1
            ∧ (∀ s ∈ ([2, 0, 1] : List Nat), s < 1 → s ≤ p)
            ∧ lockIter "/distributed_locks/item-1"
                ("/distributed_locks/item-1" ++ "/" ++ exampleNodeName 1)
                (([2, 0, 1] : List Nat).map exampleNodeName)
                = .watch ("/distributed_locks/item-1" ++ "/" ++ exampleNodeName p))
      ∧ ((∀ s ∈ ([2, 0, 1] : List Nat), 1 ≤ s) →
          ∀ (w : WatchOutcome) (rest : List LoopInput),
            lockLoop "/distributed_locks/item-1"
              ("/distributed_locks/item-1" ++ "/" ++ exampleNodeName 1)
              (⟨some (([2, 0, 1] : List Nat).map exampleNodeName), w⟩ :: rest)
              = .ok)) :=
  ⟨by decide,
   lock_acquire_iff_min "/distributed_locks/item-1" exampleNodeName [2, 0, 1] 1
     (by decide) (by decide) (by decide)⟩

/-- C7: when `ExistsW` on the predecessor fails with `zk.ErrNoNode` — the
predecessor vanished before the watch was installed — the loop re-evaluates
immediately, behaving exactly as if the predecessor-deleted notification had
fired, instead of reaching the 30-second timeout (which only the `timeout`
outcome produces). -/
theorem lock_watch_noNode_retries (path lockNode : String)
    (step : LoopInput) (rest : List LoopInput)
    (children : List String) (hc : step.children = some children)
    (prev : String) (hiter : lockIter path lockNode children = .watch prev)
    (hw : step.watch = .errNoNode) :
    lockLoop path lockNode (step :: rest) = lockLoop path lockNode rest
    ∧ lockLoop path lockNode (step :: rest)
        = lockLoop path lockNode ({ step with watch := .eventNodeDeleted } :: rest)
    ∧ lockLoop path lockNode ({ step with watch := .timeout } :: rest)
        = .errTimeout := by
  obtain ⟨ch, w0⟩ := step
  have hch : ch = some children := hc
  have hw0 : w0 = .errNoNode := hw
  subst hch
  subst hw0
  refine ⟨?_, ?_, ?_⟩ <;> simp only [lockLoop, hiter]

/-- C7 witness: a concrete run in which the `ExistsW` `ErrNoNode` pass loops
and the lock is acquired on the next pass, while the same script with a
timeout on the first pass fails with the timeout error. -/
theorem lock_watch_noNode_retries_witness :
    (((⟨some ["lock-0000000001", "lock-0000000002"], .errNoNode⟩ : LoopInput).children
        = some ["lock-0000000001", "lock-0000000002"])
      ∧ lockIter "/distributed_locks/item-1"
          "/distributed_locks/item-1/lock-0000000002"
          ["lock-0000000001", "lock-0000000002"]
          = .watch "/distributed_locks/item-1/lock-0000000001"
      ∧ ((⟨some ["lock-0000000001", "lock-0000000002"], .errNoNode⟩ : LoopInput).watch
        = .errNoNode)
      ∧ lockLoop "/distributed_locks/item-1"
          "/distributed_locks/item-1/lock-0000000002"
          [⟨some ["lock-0000000001", "lock-0000000002"], .errNoNode⟩,
           ⟨some ["lock-0000000002"], .eventOther⟩]
          = .ok)
    ∧ (lockLoop "/distributed_locks/item-1"
        "/distributed_locks/item-1/lock-0000000002"
        [⟨some ["lock-0000000001", "lock-0000000002"], .errNoNode⟩,
         ⟨some ["lock-0000000002"], .eventOther⟩]
        = lockLoop "/distributed_locks/item-1"
            "/distributed_locks/item-1/lock-0000000002"
            [⟨some ["lock-0000000002"], .eventOther⟩]
      ∧ lockLoop "/distributed_locks/item-1"
          "/distributed_locks/item-1/lock-0000000002"
          [⟨some ["lock-0000000001", "lock-0000000002"], .errNoNode⟩,
           ⟨some ["lock-0000000002"], .eventOther⟩]
        = lockLoop "/distributed_locks/item-1"
            "/distributed_locks/item-1/lock-0000000002"
            [⟨some ["lock-0000000001", "lock-0000000002"], .eventNodeDeleted⟩,
             ⟨some ["lock-0000000002"], .eventOther⟩]
      ∧ lockLoop "/distributed_locks/item-1"
          "/distributed_locks/item-1/lock-0000000002"
          [⟨some ["lock-0000000001", "lock-0000000002"], .timeout⟩,
           ⟨some ["lock-0000000002"], .eventOther⟩]
        = .errTimeout) :=
  ⟨by decide,
   lock_watch_noNode_retries "/distributed_locks/item-1"
     "/distributed_locks/item-1/lock-0000000002"
     ⟨some ["lock-0000000001", "lock-0000000002"], .errNoNode⟩
     [⟨some ["lock-0000000002"], .eventOther⟩]
     ["lock-0000000001", "lock-0000000002"] (by decide)
     "/distributed_locks/item-1/lock-0000000001" (by decide) (by decide)⟩

/-- C8 (amended): `Unlock` fails with the "no lock to unlock" error and
deletes nothing exactly when no `Lock` attempt has created a node
(`lockNode` is empty); but after a `Lock` attempt that created its node and
then returned an error such as the timeout, `lockNode` is set, so `Unlock`
succeeds and deletes that node. -/
theorem unlock_no_lock_and_after_failed_lock
    (l : DistributedLock) (deleteResult : Option ZkError) (h : l.lockNode = "")
    (l2 : DistributedLock) (nodePath : String) (hnp : nodePath ≠ "")
    (script : List LoopInput)
    (_hres : (Lock l2 (some nodePath) script).1 = .errTimeout) :
    Unlock l deleteResult = (.errNoLockToUnlock, l, none)
    ∧ (Lock l2 (some nodePath) script).2.lockNode = nodePath
    ∧ Unlock (Lock l2 (some nodePath) script).2 none
        = (.ok, { l2 with lockNode := "" }, some nodePath) := by
  refine ⟨?_, rfl, ?_⟩
  · simp [Unlock, h]
  · show Unlock { l2 with lockNode := nodePath } none = _
    simp [Unlock, hnp]

/-- C8 counterexample: after a `Lock` attempt that timed out, `Unlock` does
not fail with "no lock held" — it succeeds and deletes the node the attempt
had created. -/
theorem unlock_after_timeout_deletes_node :
    (Lock ⟨"/distributed_locks/item-1", ""⟩
        (some "/distributed_locks/item-1/lock-0000000002")
        [⟨some ["lock-0000000001", "lock-0000000002"], .timeout⟩]).1
      = .errTimeout
    ∧ Unlock (Lock ⟨"/distributed_locks/item-1", ""⟩
        (some "/distributed_locks/item-1/lock-0000000002")
        [⟨some ["lock-0000000001", "lock-0000000002"], .timeout⟩]).2 none
      = (.ok, ⟨"/distributed_locks/item-1", ""⟩,
         some "/distributed_locks/item-1/lock-0000000002") := by
  decide

/-- C8 witness for the amended claim, at a concrete timed-out `Lock`
attempt. -/
theorem unlock_no_lock_and_after_failed_lock_witness :
    ((⟨"/distributed_locks/item-2", ""⟩ : DistributedLock).lockNode = ""
      ∧ ("/distributed_locks/item-1/lock-0000000002" : String) ≠ ""
      ∧ (Lock ⟨"/distributed_locks/item-1", ""⟩
          (some "/distributed_locks/item-1/lock-0000000002")
          [⟨some ["lock-0000000001", "lock-0000000002"], .timeout⟩]).1
        = .errTimeout)
    ∧ (Unlock ⟨"/distributed_locks/item-2", ""⟩ (some ZkError.other)
        = (.errNoLockToUnlock, ⟨"/distributed_locks/item-2", ""⟩, none)
      ∧ (Lock ⟨"/distributed_locks/item-1", ""⟩
          (some "/distributed_locks/item-1/lock-0000000002")
          [⟨some ["lock-0000000001", "lock-0000000002"], .timeout⟩]).2.lockNode
        = "/distributed_locks/item-1/lock-0000000002"
      ∧ Unlock (Lock ⟨"/distributed_locks/item-1", ""⟩
          (some "/distributed_locks/item-1/lock-0000000002")
          [⟨some ["lock-0000000001", "lock-0000000002"], .timeout⟩]).2 none
        = (.ok, ⟨"/distributed_locks/item-1", ""⟩,
           some "/distributed_locks/item-1/lock-0000000002")) :=
  ⟨by decide,
   unlock_no_lock_and_after_failed_lock
     ⟨"/distributed_locks/item-2", ""⟩ (some ZkError.other) (by decide)
     ⟨"/distributed_locks/item-1", ""⟩
     "/distributed_locks/item-1/lock-0000000002" (by decide)
     [⟨some ["lock-0000000001", "lock-0000000002"], .timeout⟩] (by decide)⟩

end Zk
